import Mathlib

/-!
Verification of the ruma room-alias directory endpoints
(`src/api/r0/directory.rs`): the data model (`RoomAliasId`, `RoomAlias`),
alias canonicalization, and the three handlers `GetRoomAlias::handle`,
`DeleteRoomAlias::handle` and `PutRoomAlias::handle`, as a shallow
embedding over an association-list store.

The handlers themselves are translated from `directory.rs`.  The storage
layer (`room_alias.rs`), the identifier grammar (`ruma_identifiers`) and
the error constructors (`error.rs`) are not part of the provided source
slice; those definitions are modelled from the specification and carry a
doc comment saying so.
-/

set_option autoImplicit false

/-- The error taxonomy of the API, from the spec's section 7
(`error.rs` is not in the source slice).  `notFound` carries the optional
human-readable message the handlers pass to `ApiError::not_found`;
`invalidRoomId` stands for the error produced by `ApiError::from` on a
`room_id` string that fails syntactic validation, a class the spec leaves
unnamed but that is distinct from `badJson`. -/
inductive ApiError where
  | invalidAlias
  | missingParam (param : String)
  | badJson
  | invalidRoomId
  | roomNotFound
  | aliasTaken
  | notFound (msg : Option String)
deriving DecidableEq, Repr

/-- An alias identifier: `localpart` and `domain`, canonical textual form
`#localpart:domain`.  Mirrors `RoomAliasId` of `ruma_identifiers`. -/
structure RoomAliasId where
  localpart : String
  domain : String
deriving DecidableEq, Repr

/-- An alias record as stored by the directory: mirrors
`NewRoomAlias { alias, room_id, user_id, servers }` built in
`PutRoomAlias::handle`. -/
structure RoomAlias where
  room_alias : RoomAliasId
  room_id : String
  user_id : String
  servers : List String
deriving DecidableEq, Repr

/-- The response body of `GET /directory/room/:room_alias`
(`GetRoomAliasResponse` in `directory.rs`). -/
structure GetRoomAliasResponse where
  room_id : String
  servers : List String
deriving DecidableEq, Repr

/-- The outcome of body-parsing a `PUT` request
(`request.get::<bodyparser::Struct<PutRoomAliasRequest>>()`):
`Err(_)` (malformed JSON), `Ok(None)` (absent body), or
`Ok(Some(PutRoomAliasRequest { room_id }))`. -/
inductive Body where
  | malformed
  | absent
  | parsed (room_id : String)
deriving DecidableEq, Repr

/-- Modelled from the spec (section 4.1): the allowed-character grammar
for alias localparts.  The spec calls the set "protocol-restricted"
without enumerating it; we take the structural characters `#` and `:` of
the canonical form as forbidden. -/
def aliasCharAllowed (c : Char) : Bool :=
  c != '#' && c != ':'

/-- Canonical rendering of an alias: the `format!("#{}:{}", alias, domain)`
in `get_room_alias_id_from_params`. -/
def renderAlias (localpart domain : String) : String :=
  "#" ++ localpart ++ ":" ++ domain

/-- Modelled from the spec (section 4.1, `ruma_identifiers` is not in the
source slice): `RoomAliasId::try_from` on a canonical string.  The string
must start with `#`, the localpart is everything up to the first `:`,
must be non-empty and obey the allowed-character grammar, and the domain
(the remainder after that `:`) must be non-empty. -/
def roomAliasIdTryFrom (s : String) : Option RoomAliasId :=
  match s.data with
  | '#' :: rest =>
    let localpart : List Char := rest.takeWhile (fun c => c != ':')
    match rest.dropWhile (fun c => c != ':') with
    | ':' :: domainChars =>
      if localpart.isEmpty || !(localpart.all aliasCharAllowed)
          || domainChars.isEmpty then
        none
      else
        some ⟨⟨localpart⟩, ⟨domainChars⟩⟩
    | _ => none
  | _ => none

/-- Modelled from the spec (`ruma_identifiers` is not in the source
slice): `RoomId::try_from` — a room identifier is syntactically valid iff
it has the shape `!opaque:domain` with non-empty parts; on success the
directory keeps it as an opaque string. -/
def roomIdTryFrom (s : String) : Option String :=
  match s.data with
  | '!' :: rest =>
    if (rest.takeWhile (fun c => c != ':')).isEmpty then none
    else
      match rest.dropWhile (fun c => c != ':') with
      | ':' :: domainChars => if domainChars.isEmpty then none else some s
      | _ => none
  | _ => none

/-- `get_room_alias_id_from_params` of `directory.rs`: reads the
`room_alias` path parameter, renders `#{param}:{domain}` and parses it;
a parse failure is mapped (via `map_api_err`) to `ApiError::not_found`
with the message built there, and an absent parameter yields
`ApiError::missing_param("room_alias")`. -/
def get_room_alias_id_from_params (params : Option String) (domain : String) :
    Except ApiError RoomAliasId :=
  match params with
  | some room_alias =>
    match roomAliasIdTryFrom (renderAlias room_alias domain) with
    | some room_alias_id => Except.ok room_alias_id
    | none =>
      Except.error (ApiError.notFound
        (some ("No room alias found with ID " ++ room_alias)))
  | none => Except.error (ApiError.missingParam "room_alias")

/-- Modelled from the spec (section 4.2, `room_alias.rs` is not in the
source slice): `RoomAlias::find_by_alias` — lookup of the first (under
the uniqueness invariant: the only) record keyed by the alias id. -/
def find_by_alias : List RoomAlias → RoomAliasId → Option RoomAlias
  | [], _ => none
  | r :: rest, id => if r.room_alias = id then some r else find_by_alias rest id

/-- Modelled from the spec (section 4.2): `createIfAbsent` — if a record
for the alias already exists no write occurs (`none`, surfaced as
`Conflict`); otherwise the record is appended and the new store returned. -/
def RoomAlias.create (st : List RoomAlias) (record : RoomAlias) :
    Option (List RoomAlias) :=
  match find_by_alias st record.room_alias with
  | some _ => none
  | none => some (st ++ [record])

/-- Removes the first record keyed by the alias id, keeping the rest. -/
def eraseAlias : List RoomAlias → RoomAliasId → List RoomAlias
  | [], _ => []
  | r :: rest, id => if r.room_alias = id then rest else r :: eraseAlias rest id

/-- Modelled from the spec (section 4.2, `room_alias.rs` is not in the
source slice): `RoomAlias::delete`, the `deleteIfOwner` primitive —
removes the record only if it exists and its owner equals the supplied
owner, returning the number of affected rows (`0` or `1`) and the
resulting store; otherwise no change and `0`. -/
def RoomAlias.delete (st : List RoomAlias) (id : RoomAliasId) (owner : String) :
    Nat × List RoomAlias :=
  match find_by_alias st id with
  | some r => if r.user_id = owner then (1, eraseAlias st id) else (0, st)
  | none => (0, st)

/-- `GetRoomAlias::handle`: resolves the alias from the path parameter and
looks it up; a hit is serialized as `GetRoomAliasResponse`, a miss
propagates the store's `NotFound` (message from `room_alias.rs`, which is
not in the source slice, hence `none` here). -/
def GetRoomAlias.handle (domain : String) (params : Option String)
    (st : List RoomAlias) : Except ApiError GetRoomAliasResponse :=
  match get_room_alias_id_from_params params domain with
  | Except.error e => Except.error e
  | Except.ok room_alias_id =>
    match find_by_alias st room_alias_id with
    | some room_alias => Except.ok ⟨room_alias.room_id, room_alias.servers⟩
    | none => Except.error (ApiError.notFound none)

/-- The literal message of the `ApiError::not_found` built in
`DeleteRoomAlias::handle`. -/
def deleteNotFoundMessage : String :=
  "Provided room alias did not exist or you do not have access to delete it."

/-- `DeleteRoomAlias::handle`: resolves the alias, calls
`RoomAlias::delete` with the authenticated user's id, answers `Ok` when
`affected_rows > 0` and the fixed `not_found` error otherwise.  Returns
the response paired with the store after the operation. -/
def DeleteRoomAlias.handle (domain : String) (params : Option String)
    (user_id : String) (st : List RoomAlias) :
    Except ApiError Unit × List RoomAlias :=
  match get_room_alias_id_from_params params domain with
  | Except.error e => (Except.error e, st)
  | Except.ok room_alias_id =>
    let res := RoomAlias.delete st room_alias_id user_id
    if res.1 > 0 then (Except.ok (), res.2)
    else (Except.error (ApiError.notFound (some deleteNotFoundMessage)), res.2)

/-- `PutRoomAlias::handle`: resolves the alias, parses the body into
`{room_id}` (anything but `Ok(Some(_))` is `bad_json`), syntactically
validates the room id, then — modelled from the spec's section 4.4, since
`room_alias.rs` is not in the source slice — consults the room-existence
collaborator (`RoomNotFound` when the room does not resolve) and performs
the atomic `createIfAbsent` with
`servers = vec![config.domain.to_string()]` (`Conflict` surfaced as
`AliasTaken`).  Returns the response paired with the store after the
operation. -/
def PutRoomAlias.handle (roomExists : String → Bool) (domain : String)
    (params : Option String) (body : Body) (user_id : String)
    (st : List RoomAlias) : Except ApiError Unit × List RoomAlias :=
  match get_room_alias_id_from_params params domain with
  | Except.error e => (Except.error e, st)
  | Except.ok room_alias_id =>
    match body with
    | Body.parsed raw_room_id =>
      match roomIdTryFrom raw_room_id with
      | some room_id =>
        if roomExists room_id then
          let new_room_alias : RoomAlias :=
            ⟨room_alias_id, room_id, user_id, [domain]⟩
          match RoomAlias.create st new_room_alias with
          | some st2 => (Except.ok (), st2)
          | none => (Except.error ApiError.aliasTaken, st)
        else (Except.error ApiError.roomNotFound, st)
      | none => (Except.error ApiError.invalidRoomId, st)
    | _ => (Except.error ApiError.badJson, st)

/-- The middleware linked before a handler in its `chain()` constructor. -/
inductive Middleware where
  | accessTokenAuth
  | jsonRequest
deriving DecidableEq, Repr

/-- `GetRoomAlias::chain`: `Chain::new(GetRoomAlias)` with no middleware. -/
def GetRoomAlias.chain : List Middleware := []

/-- `DeleteRoomAlias::chain`: links `AccessTokenAuth` before the handler. -/
def DeleteRoomAlias.chain : List Middleware := [Middleware.accessTokenAuth]

/-- `PutRoomAlias::chain`: links `JsonRequest` then `AccessTokenAuth`
before the handler. -/
def PutRoomAlias.chain : List Middleware :=
  [Middleware.jsonRequest, Middleware.accessTokenAuth]

/-- Resolve as a function of an (ignored) authenticated caller:
`GetRoomAlias::handle` never reads the `User` request extension, so the
caller argument is dead. -/
def getRoomAliasWithCaller (_caller : Option String) (domain : String)
    (params : Option String) (st : List RoomAlias) :
    Except ApiError GetRoomAliasResponse :=
  GetRoomAlias.handle domain params st

/-- The namespace-uniqueness invariant: at most one record per alias id. -/
def UniqueAliases (st : List RoomAlias) : Prop :=
  st.Pairwise (fun a b => a.room_alias ≠ b.room_alias)

/-! ### Helper lemmas about the store primitives -/

theorem find_by_alias_eq_none {st : List RoomAlias} {id : RoomAliasId}
    (h : find_by_alias st id = none) : ∀ r ∈ st, r.room_alias ≠ id := by
  induction st with
  | nil => intro r hr; cases hr
  | cons a rest ih =>
    by_cases hc : a.room_alias = id
    · simp [find_by_alias, hc] at h
    · simp only [find_by_alias, hc, if_false] at h
      intro r hr
      rcases List.mem_cons.mp hr with rfl | hr2
      · exact hc
      · exact ih h r hr2

theorem find_by_alias_append_self {st : List RoomAlias} {r : RoomAlias}
    (h : find_by_alias st r.room_alias = none) :
    find_by_alias (st ++ [r]) r.room_alias = some r := by
  induction st with
  | nil => simp [find_by_alias]
  | cons a rest ih =>
    by_cases hc : a.room_alias = r.room_alias
    · simp [find_by_alias, hc] at h
    · simp only [find_by_alias, hc, if_false] at h
      simpa [find_by_alias, hc] using ih h

theorem eraseAlias_sublist (st : List RoomAlias) (id : RoomAliasId) :
    (eraseAlias st id).Sublist st := by
  induction st with
  | nil => exact List.Sublist.refl []
  | cons a rest ih =>
    by_cases hc : a.room_alias = id
    · rw [eraseAlias, if_pos hc]
      exact List.sublist_cons_self a rest
    · simpa [eraseAlias, hc] using List.Sublist.cons₂ a ih

theorem unique_create {st st2 : List RoomAlias} {record : RoomAlias}
    (hu : UniqueAliases st) (h : RoomAlias.create st record = some st2) :
    UniqueAliases st2 := by
  unfold RoomAlias.create at h
  cases hfind : find_by_alias st record.room_alias with
  | some r => rw [hfind] at h; cases h
  | none =>
    rw [hfind] at h
    cases h
    unfold UniqueAliases
    rw [List.pairwise_append]
    refine ⟨hu, List.pairwise_singleton _ _, ?_⟩
    intro a ha b hb
    rcases List.mem_singleton.mp hb with rfl
    exact fun hab => find_by_alias_eq_none hfind a ha hab

theorem unique_delete {st : List RoomAlias} (id : RoomAliasId) (owner : String)
    (hu : UniqueAliases st) : UniqueAliases (RoomAlias.delete st id owner).2 := by
  unfold RoomAlias.delete
  cases hfind : find_by_alias st id with
  | some r =>
    by_cases hown : r.user_id = owner
    · simpa [hown] using List.Pairwise.sublist (eraseAlias_sublist st id) hu
    · simpa [hown] using hu
  | none => exact hu

theorem delete_zero_rows {st : List RoomAlias} {id : RoomAliasId} {owner : String}
    (h : (RoomAlias.delete st id owner).1 = 0) :
    (RoomAlias.delete st id owner).2 = st := by
  unfold RoomAlias.delete at *
  cases hfind : find_by_alias st id with
  | some r =>
    rw [hfind] at h
    by_cases hown : r.user_id = owner
    · simp [hown] at h
    · simp [hown]
  | none => simp

theorem get_room_alias_id_some (raw domain : String) :
    get_room_alias_id_from_params (some raw) domain
      = match roomAliasIdTryFrom (renderAlias raw domain) with
        | some room_alias_id => Except.ok room_alias_id
        | none =>
          Except.error (ApiError.notFound
            (some ("No room alias found with ID " ++ raw))) := rfl

/-! ### Claim theorems -/

/-- C8: alias canonicalization is a pure function of the raw localpart and
the domain: the canonical rendering is exactly `#localpart:domain`, and
any two raw inputs rendering to the same canonical string yield the same
`AliasId` (both from `RoomAliasId::try_from` directly and through
`get_room_alias_id_from_params`, the single entry point used by all three
handlers). -/
theorem canonicalization_pure (l1 d1 l2 d2 : String)
    (h : renderAlias l1 d1 = renderAlias l2 d2) :
    renderAlias l1 d1 = "#" ++ l1 ++ ":" ++ d1
    ∧ roomAliasIdTryFrom (renderAlias l1 d1)
        = roomAliasIdTryFrom (renderAlias l2 d2)
    ∧ (∀ id : RoomAliasId,
        get_room_alias_id_from_params (some l1) d1 = Except.ok id
          ↔ get_room_alias_id_from_params (some l2) d2 = Except.ok id) := by
  refine ⟨rfl, congrArg roomAliasIdTryFrom h, ?_⟩
  intro id
  rw [get_room_alias_id_some, get_room_alias_id_some, h]
  cases roomAliasIdTryFrom (renderAlias l2 d2) with
  | some id2 => exact Iff.rfl
  | none => simp

/-- C8 witness: the two distinct raw inputs `("a:b", "c")` and
`("a", "b:c")` render to the same canonical string and parse to the same
alias id. -/
theorem canonicalization_pure_witness :
    roomAliasIdTryFrom (renderAlias "a:b" "c")
      = roomAliasIdTryFrom (renderAlias "a" "b:c") :=
  (canonicalization_pure "a:b" "c" "a" "b:c" rfl).2.1

/-- C9: `GetRoomAlias::chain` contains no authentication middleware and
the Resolve outcome is independent of any authenticated caller, whereas
the `DeleteRoomAlias::chain` and `PutRoomAlias::chain` both link
`AccessTokenAuth` before their handlers. -/
theorem resolve_requires_no_auth :
    Middleware.accessTokenAuth ∉ GetRoomAlias.chain
    ∧ Middleware.accessTokenAuth ∈ DeleteRoomAlias.chain
    ∧ Middleware.accessTokenAuth ∈ PutRoomAlias.chain
    ∧ (∀ (caller1 caller2 : Option String) (domain : String)
        (params : Option String) (st : List RoomAlias),
        getRoomAliasWithCaller caller1 domain params st
          = getRoomAliasWithCaller caller2 domain params st) := by
  refine ⟨?_, ?_, ?_, ?_⟩
  · intro h; cases h
  · exact List.mem_singleton.mpr rfl
  · exact List.mem_cons.mpr (Or.inr (List.mem_singleton.mpr rfl))
  · intro _ _ _ _ _; rfl

theorem roomIdTryFrom_eq_some {s t : String} (h : roomIdTryFrom s = some t) :
    t = s := by
  unfold roomIdTryFrom at h
  split at h
  · split at h
    · cases h
    · split at h
      · split at h
        · cases h
        · cases h; rfl
      · cases h
  · cases h

theorem create_eq_some {st st2 : List RoomAlias} {record : RoomAlias}
    (h : RoomAlias.create st record = some st2) :
    find_by_alias st record.room_alias = none ∧ st2 = st ++ [record] := by
  unfold RoomAlias.create at h
  cases hfind : find_by_alias st record.room_alias with
  | some r => rw [hfind] at h; cases h
  | none => rw [hfind] at h; cases h; exact ⟨rfl, rfl⟩

theorem put_preserves_unique (roomExists : String → Bool) (domain : String)
    (params : Option String) (body : Body) (owner : String)
    (st : List RoomAlias) (hu : UniqueAliases st) :
    UniqueAliases (PutRoomAlias.handle roomExists domain params body owner st).2 := by
  unfold PutRoomAlias.handle
  cases hp : get_room_alias_id_from_params params domain with
  | error e => exact hu
  | ok id =>
    dsimp only
    cases body with
    | malformed => exact hu
    | absent => exact hu
    | parsed raw2 =>
      dsimp only
      cases hr : roomIdTryFrom raw2 with
      | none => exact hu
      | some rid =>
        dsimp only
        split
        · cases hcr : RoomAlias.create st ⟨id, rid, owner, [domain]⟩ with
          | some st3 => exact unique_create hu hcr
          | none => exact hu
        · exact hu

theorem delete_preserves_unique (domain : String) (params : Option String)
    (owner : String) (st : List RoomAlias) (hu : UniqueAliases st) :
    UniqueAliases (DeleteRoomAlias.handle domain params owner st).2 := by
  unfold DeleteRoomAlias.handle
  cases hp : get_room_alias_id_from_params params domain with
  | error e => exact hu
  | ok id =>
    dsimp only
    split
    · exact unique_delete id owner hu
    · exact unique_delete id owner hu

/-- C1: for a valid alias token (one that resolves to alias id `id`), a
successful `PutRoomAlias` stores a record with `servers = [domain]`, and a
subsequent `GetRoomAlias` of the same alias token returns `room_id = R`
and a servers list containing `domain`. -/
theorem bind_then_resolve_round_trip (roomExists : String → Bool)
    (domain raw owner R : String) (st st2 : List RoomAlias) (id : RoomAliasId)
    (hparse : get_room_alias_id_from_params (some raw) domain = Except.ok id)
    (h : PutRoomAlias.handle roomExists domain (some raw) (Body.parsed R)
          owner st = (Except.ok (), st2)) :
    find_by_alias st2 id = some ⟨id, R, owner, [domain]⟩
    ∧ GetRoomAlias.handle domain (some raw) st2
        = Except.ok ⟨R, [domain]⟩
    ∧ domain ∈ (⟨R, [domain]⟩ : GetRoomAliasResponse).servers := by
  unfold PutRoomAlias.handle at h
  rw [hparse] at h
  dsimp only at h
  cases hr : roomIdTryFrom R with
  | none => rw [hr] at h; cases h
  | some rid =>
    rw [hr] at h
    dsimp only at h
    have hR : rid = R := roomIdTryFrom_eq_some hr
    subst hR
    by_cases hex : roomExists rid
    · rw [if_pos hex] at h
      cases hcr : RoomAlias.create st ⟨id, rid, owner, [domain]⟩ with
      | none => rw [hcr] at h; cases h
      | some st3 =>
        rw [hcr] at h
        have hst : st3 = st2 := congrArg Prod.snd h
        subst hst
        obtain ⟨hnone, hst2⟩ := create_eq_some hcr
        subst hst2
        have hfind : find_by_alias (st ++ [(⟨id, rid, owner, [domain]⟩ : RoomAlias)]) id
            = some ⟨id, rid, owner, [domain]⟩ :=
          find_by_alias_append_self hnone
        refine ⟨hfind, ?_, List.mem_singleton.mpr rfl⟩
        simp [GetRoomAlias.handle, hparse, hfind]
    · rw [if_neg hex] at h; cases h

/-- C1 witness: binding `my_room` to `!r:ruma.test` for owner `u1` on an
empty store, then resolving it, returns the bound room and the local
domain in the servers list. -/
theorem bind_then_resolve_round_trip_witness :
    find_by_alias
        [⟨⟨"my_room", "ruma.test"⟩, "!r:ruma.test", "u1", ["ruma.test"]⟩]
        ⟨"my_room", "ruma.test"⟩
      = some ⟨⟨"my_room", "ruma.test"⟩, "!r:ruma.test", "u1", ["ruma.test"]⟩
    ∧ GetRoomAlias.handle "ruma.test" (some "my_room")
        [⟨⟨"my_room", "ruma.test"⟩, "!r:ruma.test", "u1", ["ruma.test"]⟩]
      = Except.ok ⟨"!r:ruma.test", ["ruma.test"]⟩
    ∧ "ruma.test" ∈ (⟨"!r:ruma.test", ["ruma.test"]⟩ : GetRoomAliasResponse).servers :=
  bind_then_resolve_round_trip (fun _ => true) "ruma.test" "my_room" "u1"
    "!r:ruma.test" []
    [⟨⟨"my_room", "ruma.test"⟩, "!r:ruma.test", "u1", ["ruma.test"]⟩]
    ⟨"my_room", "ruma.test"⟩ rfl rfl

/-- C2: a `PutRoomAlias` issued while the alias is currently bound always
fails with `AliasTaken` and leaves the store unchanged — the record `r`
is arbitrary, so in particular this covers the caller being the owner of
the existing record binding the same room — and both handlers preserve
the at-most-one-record-per-alias invariant. -/
theorem bind_on_bound_alias_taken (roomExists : String → Bool)
    (domain raw owner R : String) (st : List RoomAlias)
    (id : RoomAliasId) (r : RoomAlias)
    (hparse : get_room_alias_id_from_params (some raw) domain = Except.ok id)
    (hbound : find_by_alias st id = some r)
    (hroom : roomIdTryFrom R = some R)
    (hexists : roomExists R = true) :
    PutRoomAlias.handle roomExists domain (some raw) (Body.parsed R) owner st
        = (Except.error ApiError.aliasTaken, st)
    ∧ (∀ (params2 : Option String) (body2 : Body) (owner2 : String)
        (st2 : List RoomAlias), UniqueAliases st2 →
        UniqueAliases
            (PutRoomAlias.handle roomExists domain params2 body2 owner2 st2).2
        ∧ UniqueAliases (DeleteRoomAlias.handle domain params2 owner2 st2).2) := by
  constructor
  · have hcr : RoomAlias.create st ⟨id, R, owner, [domain]⟩ = none := by
      unfold RoomAlias.create
      dsimp only
      rw [hbound]
    simp [PutRoomAlias.handle, hparse, hroom, hexists, hcr]
  · intro params2 body2 owner2 st2 hu
    exact ⟨put_preserves_unique roomExists domain params2 body2 owner2 st2 hu,
      delete_preserves_unique domain params2 owner2 st2 hu⟩

/-- C2 witness: rebinding `my_room` to the same room by the same owner
`u1` while it is bound fails with `AliasTaken` and leaves the record
unchanged. -/
theorem bind_on_bound_alias_taken_witness :
    PutRoomAlias.handle (fun _ => true) "ruma.test" (some "my_room")
        (Body.parsed "!r:ruma.test") "u1"
        [⟨⟨"my_room", "ruma.test"⟩, "!r:ruma.test", "u1", ["ruma.test"]⟩]
      = (Except.error ApiError.aliasTaken,
        [⟨⟨"my_room", "ruma.test"⟩, "!r:ruma.test", "u1", ["ruma.test"]⟩]) :=
  (bind_on_bound_alias_taken (fun _ => true) "ruma.test" "my_room" "u1"
    "!r:ruma.test"
    [⟨⟨"my_room", "ruma.test"⟩, "!r:ruma.test", "u1", ["ruma.test"]⟩]
    ⟨"my_room", "ruma.test"⟩
    ⟨⟨"my_room", "ruma.test"⟩, "!r:ruma.test", "u1", ["ruma.test"]⟩
    rfl rfl rfl rfl).1

/-- C3: `DeleteRoomAlias` succeeds (empty success) iff a record for the
alias exists whose owner is the authenticated caller; in every other case
it fails with the fixed `NotFound` error and the store is unchanged. -/
theorem delete_owner_gated (domain raw caller : String)
    (st : List RoomAlias) (id : RoomAliasId)
    (hparse : get_room_alias_id_from_params (some raw) domain = Except.ok id) :
    ((∃ r, find_by_alias st id = some r ∧ r.user_id = caller) →
      (DeleteRoomAlias.handle domain (some raw) caller st).1 = Except.ok ())
    ∧ ((¬ ∃ r, find_by_alias st id = some r ∧ r.user_id = caller) →
      DeleteRoomAlias.handle domain (some raw) caller st
        = (Except.error (ApiError.notFound (some deleteNotFoundMessage)), st)) := by
  constructor
  · rintro ⟨r, hr, hown⟩
    have hdel : RoomAlias.delete st id caller = (1, eraseAlias st id) := by
      unfold RoomAlias.delete
      rw [hr]
      simp [hown]
    simp [DeleteRoomAlias.handle, hparse, hdel]
  · intro hne
    have hdel : RoomAlias.delete st id caller = (0, st) := by
      unfold RoomAlias.delete
      cases hr : find_by_alias st id with
      | some r =>
        by_cases hown : r.user_id = caller
        · exact absurd ⟨r, hr, hown⟩ hne
        · simp [hown]
      | none => rfl
    simp [DeleteRoomAlias.handle, hparse, hdel]

/-- C3 witness: the owner `u1` may delete their own record (success), and
the other caller `u2` gets the fixed `NotFound` error with the store
unchanged. -/
theorem delete_owner_gated_witness :
    (DeleteRoomAlias.handle "ruma.test" (some "my_room") "u1"
        [⟨⟨"my_room", "ruma.test"⟩, "!r:ruma.test", "u1", ["ruma.test"]⟩]).1
      = Except.ok ()
    ∧ DeleteRoomAlias.handle "ruma.test" (some "my_room") "u2"
        [⟨⟨"my_room", "ruma.test"⟩, "!r:ruma.test", "u1", ["ruma.test"]⟩]
      = (Except.error (ApiError.notFound (some deleteNotFoundMessage)),
        [⟨⟨"my_room", "ruma.test"⟩, "!r:ruma.test", "u1", ["ruma.test"]⟩]) :=
  ⟨(delete_owner_gated "ruma.test" "my_room" "u1"
      [⟨⟨"my_room", "ruma.test"⟩, "!r:ruma.test", "u1", ["ruma.test"]⟩]
      ⟨"my_room", "ruma.test"⟩ rfl).1
      ⟨⟨⟨"my_room", "ruma.test"⟩, "!r:ruma.test", "u1", ["ruma.test"]⟩, rfl, rfl⟩,
    (delete_owner_gated "ruma.test" "my_room" "u2"
      [⟨⟨"my_room", "ruma.test"⟩, "!r:ruma.test", "u1", ["ruma.test"]⟩]
      ⟨"my_room", "ruma.test"⟩ rfl).2
      (by rintro ⟨r, hr, hown⟩; cases hr; simp at hown)⟩

/-- C4: for the same caller and alias token, the run on a store with no
record for the alias and the run on a store whose record belongs to a
different owner produce the identical fixed `NotFound` error (and leave
their stores unchanged), so a non-owner cannot learn whether the alias is
bound. -/
theorem delete_no_existence_leak (domain raw caller : String)
    (stA stB : List RoomAlias) (id : RoomAliasId) (r : RoomAlias)
    (hparse : get_room_alias_id_from_params (some raw) domain = Except.ok id)
    (hA : find_by_alias stA id = none)
    (hB : find_by_alias stB id = some r)
    (hown : r.user_id ≠ caller) :
    DeleteRoomAlias.handle domain (some raw) caller stA
        = (Except.error (ApiError.notFound (some deleteNotFoundMessage)), stA)
    ∧ DeleteRoomAlias.handle domain (some raw) caller stB
        = (Except.error (ApiError.notFound (some deleteNotFoundMessage)), stB)
    ∧ (DeleteRoomAlias.handle domain (some raw) caller stA).1
        = (DeleteRoomAlias.handle domain (some raw) caller stB).1 := by
  have hdA : RoomAlias.delete stA id caller = (0, stA) := by
    unfold RoomAlias.delete
    rw [hA]
  have hdB : RoomAlias.delete stB id caller = (0, stB) := by
    unfold RoomAlias.delete
    rw [hB]
    simp [hown]
  have h1 : DeleteRoomAlias.handle domain (some raw) caller stA
      = (Except.error (ApiError.notFound (some deleteNotFoundMessage)), stA) := by
    simp [DeleteRoomAlias.handle, hparse, hdA]
  have h2 : DeleteRoomAlias.handle domain (some raw) caller stB
      = (Except.error (ApiError.notFound (some deleteNotFoundMessage)), stB) := by
    simp [DeleteRoomAlias.handle, hparse, hdB]
  exact ⟨h1, h2, by rw [h1, h2]⟩

/-- C4 witness: deleting `my_room` as `u2` on the empty store and on a
store where `u1` owns the record yields the identical error. -/
theorem delete_no_existence_leak_witness :
    DeleteRoomAlias.handle "ruma.test" (some "my_room") "u2" []
        = (Except.error (ApiError.notFound (some deleteNotFoundMessage)), [])
    ∧ DeleteRoomAlias.handle "ruma.test" (some "my_room") "u2"
        [⟨⟨"my_room", "ruma.test"⟩, "!r:ruma.test", "u1", ["ruma.test"]⟩]
        = (Except.error (ApiError.notFound (some deleteNotFoundMessage)),
          [⟨⟨"my_room", "ruma.test"⟩, "!r:ruma.test", "u1", ["ruma.test"]⟩])
    ∧ (DeleteRoomAlias.handle "ruma.test" (some "my_room") "u2" []).1
        = (DeleteRoomAlias.handle "ruma.test" (some "my_room") "u2"
          [⟨⟨"my_room", "ruma.test"⟩, "!r:ruma.test", "u1", ["ruma.test"]⟩]).1 :=
  delete_no_existence_leak "ruma.test" "my_room" "u2" []
    [⟨⟨"my_room", "ruma.test"⟩, "!r:ruma.test", "u1", ["ruma.test"]⟩]
    ⟨"my_room", "ruma.test"⟩
    ⟨⟨"my_room", "ruma.test"⟩, "!r:ruma.test", "u1", ["ruma.test"]⟩
    rfl rfl rfl (by simp)

/-- C5: `PutRoomAlias` with a syntactically valid `room_id` that does not
resolve to an existing room fails with `RoomNotFound` — an error class
distinct from every `NotFound` — and leaves the store, in particular the
binding state of the alias, unchanged. -/
theorem bind_room_not_found (roomExists : String → Bool)
    (domain raw owner R : String) (st : List RoomAlias) (id : RoomAliasId)
    (hparse : get_room_alias_id_from_params (some raw) domain = Except.ok id)
    (hroom : roomIdTryFrom R = some R)
    (hexists : roomExists R = false) :
    PutRoomAlias.handle roomExists domain (some raw) (Body.parsed R) owner st
        = (Except.error ApiError.roomNotFound, st)
    ∧ (∀ msg, ApiError.roomNotFound ≠ ApiError.notFound msg)
    ∧ find_by_alias (PutRoomAlias.handle roomExists domain (some raw)
        (Body.parsed R) owner st).2 id = find_by_alias st id := by
  have hmain : PutRoomAlias.handle roomExists domain (some raw)
      (Body.parsed R) owner st = (Except.error ApiError.roomNotFound, st) := by
    simp [PutRoomAlias.handle, hparse, hroom, hexists]
  refine ⟨hmain, ?_, ?_⟩
  · intro msg hcontra
    cases hcontra
  · rw [hmain]

/-- C5 witness: binding `my_room` to the syntactically valid but
non-existent room `!nonexistent:ruma.test` fails with `RoomNotFound` and
leaves the empty store empty. -/
theorem bind_room_not_found_witness :
    PutRoomAlias.handle (fun _ => false) "ruma.test" (some "my_room")
        (Body.parsed "!nonexistent:ruma.test") "u1" []
      = (Except.error ApiError.roomNotFound, [])
    ∧ (∀ msg, ApiError.roomNotFound ≠ ApiError.notFound msg)
    ∧ find_by_alias (PutRoomAlias.handle (fun _ => false) "ruma.test"
        (some "my_room") (Body.parsed "!nonexistent:ruma.test") "u1" []).2
        ⟨"my_room", "ruma.test"⟩
      = find_by_alias [] ⟨"my_room", "ruma.test"⟩ :=
  bind_room_not_found (fun _ => false) "ruma.test" "my_room" "u1"
    "!nonexistent:ruma.test" [] ⟨"my_room", "ruma.test"⟩ rfl rfl rfl

/-- C6: `GetRoomAlias` returns the stored record's room and servers when a
record for the canonicalized alias exists; it signals `NotFound` both
when no record exists and when the raw alias token fails validation (the
`InvalidAlias` case being folded into `NotFound` by
`get_room_alias_id_from_params`). -/
theorem resolve_hit_miss_and_invalid (domain raw : String)
    (st : List RoomAlias) :
    (∀ (id : RoomAliasId) (r : RoomAlias),
      get_room_alias_id_from_params (some raw) domain = Except.ok id →
      find_by_alias st id = some r →
      GetRoomAlias.handle domain (some raw) st = Except.ok ⟨r.room_id, r.servers⟩)
    ∧ (∀ id : RoomAliasId,
      get_room_alias_id_from_params (some raw) domain = Except.ok id →
      find_by_alias st id = none →
      GetRoomAlias.handle domain (some raw) st
        = Except.error (ApiError.notFound none))
    ∧ (roomAliasIdTryFrom (renderAlias raw domain) = none →
      GetRoomAlias.handle domain (some raw) st
        = Except.error (ApiError.notFound
            (some ("No room alias found with ID " ++ raw)))) := by
  refine ⟨?_, ?_, ?_⟩
  · intro id r hp hf
    simp [GetRoomAlias.handle, hp, hf]
  · intro id hp hf
    simp [GetRoomAlias.handle, hp, hf]
  · intro hinv
    have hp : get_room_alias_id_from_params (some raw) domain
        = Except.error (ApiError.notFound
            (some ("No room alias found with ID " ++ raw))) := by
      rw [get_room_alias_id_some, hinv]
    simp [GetRoomAlias.handle, hp]

/-- C6 witness: a hit returns the stored room and servers, a miss and an
invalid raw token (empty localpart) both return `NotFound`. -/
theorem resolve_hit_miss_and_invalid_witness :
    GetRoomAlias.handle "ruma.test" (some "my_room")
        [⟨⟨"my_room", "ruma.test"⟩, "!r:ruma.test", "u1", ["ruma.test"]⟩]
      = Except.ok ⟨"!r:ruma.test", ["ruma.test"]⟩
    ∧ GetRoomAlias.handle "ruma.test" (some "no_room") []
      = Except.error (ApiError.notFound none)
    ∧ GetRoomAlias.handle "ruma.test" (some "") []
      = Except.error (ApiError.notFound
          (some ("No room alias found with ID " ++ ""))) :=
  ⟨(resolve_hit_miss_and_invalid "ruma.test" "my_room"
      [⟨⟨"my_room", "ruma.test"⟩, "!r:ruma.test", "u1", ["ruma.test"]⟩]).1
      ⟨"my_room", "ruma.test"⟩
      ⟨⟨"my_room", "ruma.test"⟩, "!r:ruma.test", "u1", ["ruma.test"]⟩ rfl rfl,
    (resolve_hit_miss_and_invalid "ruma.test" "no_room" []).2.1
      ⟨"no_room", "ruma.test"⟩ rfl rfl,
    (resolve_hit_miss_and_invalid "ruma.test" "" []).2.2 rfl⟩

/-- C7 counterexample: `PutRoomAlias` with an empty localpart (a token
violating the alias grammar) fails with the `NotFound` error class —
produced by `get_room_alias_id_from_params` via `map_api_err` — and not
with `InvalidAlias` as the claim states. -/
theorem bind_invalid_alias_counterexample :
    PutRoomAlias.handle (fun _ => true) "ruma.test" (some "")
        (Body.parsed "!r:ruma.test") "u1" []
      = (Except.error (ApiError.notFound (some "No room alias found with ID ")), [])
    ∧ ApiError.notFound (some "No room alias found with ID ")
        ≠ ApiError.invalidAlias := by
  refine ⟨rfl, ?_⟩
  intro hcontra
  cases hcontra

/-- C7 amended: `PutRoomAlias` with an alias token whose localpart
violates the allowed-character grammar or is empty fails with the
`NotFound` error class (carrying the message built in
`get_room_alias_id_from_params`), the alias-validation failure being
mapped to `not_found` rather than surfaced as `InvalidAlias`. -/
theorem bind_invalid_alias_not_found (roomExists : String → Bool)
    (domain raw : String) (body : Body) (owner : String) (st : List RoomAlias)
    (hinvalid : roomAliasIdTryFrom (renderAlias raw domain) = none) :
    PutRoomAlias.handle roomExists domain (some raw) body owner st
      = (Except.error (ApiError.notFound
          (some ("No room alias found with ID " ++ raw))), st) := by
  have hp : get_room_alias_id_from_params (some raw) domain
      = Except.error (ApiError.notFound
          (some ("No room alias found with ID " ++ raw))) := by
    rw [get_room_alias_id_some, hinvalid]
  simp [PutRoomAlias.handle, hp]

/-- C7 amended witness: binding with the empty localpart fails with the
`NotFound` error and leaves the store unchanged. -/
theorem bind_invalid_alias_not_found_witness :
    PutRoomAlias.handle (fun _ => true) "ruma.test" (some "")
        (Body.parsed "!r:ruma.test") "u1" []
      = (Except.error (ApiError.notFound
          (some ("No room alias found with ID " ++ ""))), []) :=
  bind_invalid_alias_not_found (fun _ => true) "ruma.test" ""
    (Body.parsed "!r:ruma.test") "u1" [] rfl

/-- C10: in `PutRoomAlias`, a body that parses as `{room_id}` but whose
`room_id` fails syntactic validation yields an error distinct from
`BadJson` with the store untouched, while `BadJson` is produced exactly
when the body is not `Ok(Some {room_id})` (malformed or absent). -/
theorem bind_bad_room_id_distinct_from_bad_json (roomExists : String → Bool)
    (domain raw owner R : String) (st : List RoomAlias) (id : RoomAliasId)
    (hparse : get_room_alias_id_from_params (some raw) domain = Except.ok id)
    (hbad : roomIdTryFrom R = none) :
    PutRoomAlias.handle roomExists domain (some raw) (Body.parsed R) owner st
        = (Except.error ApiError.invalidRoomId, st)
    ∧ ApiError.invalidRoomId ≠ ApiError.badJson
    ∧ (∀ body : Body, (∀ s, body ≠ Body.parsed s) →
        PutRoomAlias.handle roomExists domain (some raw) body owner st
          = (Except.error ApiError.badJson, st))
    ∧ (∀ s : String,
        (PutRoomAlias.handle roomExists domain (some raw) (Body.parsed s)
          owner st).1 ≠ Except.error ApiError.badJson) := by
  refine ⟨?_, ?_, ?_, ?_⟩
  · simp [PutRoomAlias.handle, hparse, hbad]
  · intro hcontra
    cases hcontra
  · intro body hb
    cases body with
    | malformed => simp [PutRoomAlias.handle, hparse]
    | absent => simp [PutRoomAlias.handle, hparse]
    | parsed s => exact absurd rfl (hb s)
  · intro s
    unfold PutRoomAlias.handle
    rw [hparse]
    dsimp only
    cases hr : roomIdTryFrom s with
    | none => simp
    | some rid =>
      dsimp only
      split
      · cases hcr : RoomAlias.create st ⟨id, rid, owner, [domain]⟩ with
        | some st3 => simp
        | none => simp
      · simp

/-- C10 witness: a parsed body whose room id `nope` is syntactically
invalid yields `invalidRoomId` (not `BadJson`), a malformed body yields
`BadJson`, and a parsed body never yields `BadJson`. -/
theorem bind_bad_room_id_distinct_from_bad_json_witness :
    PutRoomAlias.handle (fun _ => true) "ruma.test" (some "my_room")
        (Body.parsed "nope") "u1" []
      = (Except.error ApiError.invalidRoomId, [])
    ∧ PutRoomAlias.handle (fun _ => true) "ruma.test" (some "my_room")
        Body.malformed "u1" []
      = (Except.error ApiError.badJson, []) :=
  ⟨(bind_bad_room_id_distinct_from_bad_json (fun _ => true) "ruma.test"
      "my_room" "u1" "nope" [] ⟨"my_room", "ruma.test"⟩ rfl rfl).1,
    (bind_bad_room_id_distinct_from_bad_json (fun _ => true) "ruma.test"
      "my_room" "u1" "nope" [] ⟨"my_room", "ruma.test"⟩ rfl rfl).2.2.1
      Body.malformed (fun _ h => Body.noConfusion h)⟩
